import Mathlib

/-!
# kube2dnsimple: reconciliation of DNSimple records with Kubernetes services

A shallow embedding of `kube2dnsimple.go`.  The DNSimple client and the
template engine are collaborators of the program: the client is a structure of
state-passing operations, the parsed template is a function from a service to
a name or an error.  Every provider call is logged, with its error result, in
a trace carried by the world, so that statements about "which calls are made"
are statements about that trace.  `glog.Fatalf` terminates the process; it is
an explicit outcome.
-/

namespace Kube2dnsimple

/-- Go `error` values, identified by their message. -/
abbrev Err := String

/-- The fields of `dnsimple.Record` that the program reads or writes. -/
structure Record where
  Id : Int
  Name : String
  RecordType : String
  Content : String
deriving DecidableEq, Repr

/-- The fields of `kapi.LoadBalancerIngress`. -/
structure LoadBalancerIngress where
  IP : String
  Hostname : String
deriving DecidableEq, Repr

/-- The fields of `kapi.ServicePort` (only the number of ports is read). -/
structure ServicePort where
  Name : String
  Port : Int
deriving DecidableEq, Repr

/-- The fields of `kapi.Service` used by the program.  `Labels` is a Go map,
    here an association list; `none` is the nil map of a service without
    labels. -/
structure Service where
  Name : String
  Namespace : String
  Labels : Option (List (String × String))
  Ports : List ServicePort
  ClusterIP : String
  Ingress : List LoadBalancerIngress
deriving DecidableEq, Repr

/-- One call on the DNSimple client, with the error it returned. -/
inductive Call where
  | list (domain name type : String) (err : Option Err)
  | create (domain : String) (record : Record) (err : Option Err)
  | delete (domain : String) (id : Int) (err : Option Err)
deriving DecidableEq, Repr

/-- The three operations of `ks.ds.Domains`, over a provider state `σ`. -/
structure Provider (σ : Type) where
  ListRecords : σ → String → String → String → Except Err (List Record) × σ
  CreateRecord : σ → String → Record → Except Err Record × σ
  DeleteRecord : σ → String → Int → Option Err × σ

/-- The world a reconciliation runs in: the provider state, the log of the
    provider calls made so far, and the clock (nanoseconds). -/
structure World (σ : Type) where
  prov : σ
  trace : List Call
  now : Int

/-- The fields of `kube2dnsimple` that the reconciliation uses. -/
structure kube2dnsimple (σ : Type) where
  ds : Provider σ
  tmpl : Service → Except Err String
  domain : String
  mutationTimeout : Int

/-- The error part of a result. -/
def errOf {α : Type} : Except Err α → Option Err
  | .error e => some e
  | .ok _ => none

/-- The call `ks.ds.Domains.ListRecords(ks.domain, name, typ)`, logged. -/
def callList {σ : Type} (ks : kube2dnsimple σ) (w : World σ) (name typ : String) :
    Except Err (List Record) × World σ :=
  let r := ks.ds.ListRecords w.prov ks.domain name typ
  (r.1, { w with prov := r.2, trace := w.trace ++ [Call.list ks.domain name typ (errOf r.1)] })

/-- The call `ks.ds.Domains.CreateRecord(ks.domain, record)`, logged. -/
def callCreate {σ : Type} (ks : kube2dnsimple σ) (w : World σ) (record : Record) :
    Except Err Record × World σ :=
  let r := ks.ds.CreateRecord w.prov ks.domain record
  (r.1, { w with prov := r.2, trace := w.trace ++ [Call.create ks.domain record (errOf r.1)] })

/-- The call `ks.ds.Domains.DeleteRecord(ks.domain, id)`, logged. -/
def callDelete {σ : Type} (ks : kube2dnsimple σ) (w : World σ) (id : Int) :
    Option Err × World σ :=
  let r := ks.ds.DeleteRecord w.prov ks.domain id
  (r.1, { w with prov := r.2, trace := w.trace ++ [Call.delete ks.domain id r.1] })

/-- Go map indexing `m[key]` on a `map[string]string`: the value when the key
    is present, the zero value `""` otherwise, also on a nil map. -/
def mapIndex (m : Option (List (String × String))) (key : String) : String :=
  match m with
  | none => ""
  | some kvs =>
    match kvs.find? (fun kv => kv.1 == key) with
    | some kv => kv.2
    | none => ""

/-- The type `templateTarget`: the value the template is executed on. -/
structure templateTarget where
  Service : Service

/-- The method `templateTarget.Label`: index the label map of the service. -/
def templateTarget.Label (t : templateTarget) (name : String) : String :=
  mapIndex t.Service.Labels name

/-- The method `recordName`: execute the parsed template on the service. -/
def recordName {σ : Type} (ks : kube2dnsimple σ) (s : Service) : Except Err String :=
  ks.tmpl (templateTarget.mk s).Service

/-- The loop `for _, rec := range records { DeleteRecord; if err != nil { return err } }`. -/
def deleteLoop {σ : Type} (ks : kube2dnsimple σ) : List Record → World σ → Option Err × World σ
  | [], w => (none, w)
  | rec :: rest, w =>
    match callDelete ks w rec.Id with
    | (some e, w1) => (some e, w1)
    | (none, w1) => deleteLoop ks rest w1

/-- The method `removeDNS`: list the CNAME records of the name, delete each. -/
def removeDNS {σ : Type} (ks : kube2dnsimple σ) (service : Service) (w : World σ) :
    Option Err × World σ :=
  match recordName ks service with
  | .error e => (some e, w)
  | .ok name =>
    match callList ks w name "CNAME" with
    | (.error e, w1) => (some e, w1)
    | (.ok records, w1) => deleteLoop ks records w1

/-- The test `rec.RecordType == "CNAME" && rec.Content == lb.Hostname` of both inner loops. -/
def recMatches (rec : Record) (lb : LoadBalancerIngress) : Bool :=
  rec.RecordType == "CNAME" && rec.Content == lb.Hostname

/-- The first outer loop (lines 107-119): the ingress entries no record matches. -/
def computeToAdd (lbs : List LoadBalancerIngress) (records : List Record) :
    List LoadBalancerIngress :=
  lbs.filter (fun lb => !(records.any (fun rec => recMatches rec lb)))

/-- The second outer loop (lines 121-133): the records no ingress entry matches. -/
def computeToRemove (lbs : List LoadBalancerIngress) (records : List Record) : List Record :=
  records.filter (fun rec => !(lbs.any (fun lb => recMatches rec lb)))

/-- The record built in the body of the final loop. -/
def cnameRecord (name : String) (lb : LoadBalancerIngress) : Record :=
  { Id := 0, Name := name, RecordType := "CNAME", Content := lb.Hostname }

/-- The final loop (lines 152-165): its body ends in `return err`, so the
    loop returns after the first `CreateRecord`; `return nil` after an empty range. -/
def createLoop {σ : Type} (ks : kube2dnsimple σ) (name : String) :
    List LoadBalancerIngress → World σ → Option Err × World σ
  | [], w => (none, w)
  | lb :: _, w =>
    let r := callCreate ks w (cnameRecord name lb)
    (errOf r.1, r.2)

/-- Lines 147-165: `if len(lbs) == 0 { return nil }`, then the final loop. -/
def createStage {σ : Type} (ks : kube2dnsimple σ) (name : String)
    (lbs : List LoadBalancerIngress) (w : World σ) : Option Err × World σ :=
  if lbs.length = 0 then (none, w) else createLoop ks name lbs w

/-- The method `generateRecordsForPortalService`: list, diff, delete, create. -/
def generateRecordsForPortalService {σ : Type} (ks : kube2dnsimple σ) (service : Service)
    (w : World σ) : Option Err × World σ :=
  match recordName ks service with
  | .error e => (some e, w)
  | .ok name =>
    match callList ks w name "CNAME" with
    | (.error e, w1) => (some e, w1)
    | (.ok records, w1) =>
      let lbs := service.Ingress
      if records.length > 0 then
        let toAdd := computeToAdd lbs records
        let toRemove := computeToRemove lbs records
        match deleteLoop ks toRemove w1 with
        | (some e, w2) => (some e, w2)
        | (none, w2) => createStage ks name toAdd w2
      else createStage ks name lbs w1

/-- The function `kapi.IsServiceIPSet`: the cluster IP is neither `"None"` nor empty. -/
def IsServiceIPSet (service : Service) : Bool :=
  service.ClusterIP != "None" && service.ClusterIP != ""

/-- What a mutator does: it returns an error value, or `glog.Fatalf` ends the process. -/
inductive MutRes where
  | ret (err : Option Err)
  | fatal
deriving DecidableEq, Repr

/-- The method `addDNS`: fatal without ports, nothing without a cluster IP. -/
def addDNS {σ : Type} (ks : kube2dnsimple σ) (service : Service) (w : World σ) :
    MutRes × World σ :=
  if service.Ports.length = 0 then (MutRes.fatal, w)
  else if !(IsServiceIPSet service) then (MutRes.ret none, w)
  else
    let r := generateRecordsForPortalService ks service w
    (MutRes.ret r.1, r.2)

/-- How `mutateOrDie` ends: it returns, or `glog.Fatalf` ends the process. -/
inductive Outcome where
  | returned
  | fatal
deriving DecidableEq, Repr

/-- One second, in nanoseconds (`time.Second`). -/
def second : Int := 1000000000

/-- The call `time.Sleep(d)`: the clock advances by `d`. -/
def sleep {σ : Type} (d : Int) (w : World σ) : World σ :=
  { w with now := w.now + d }

/-- The `for { select { ... } }` loop of `mutateOrDie`.  The channel of
    `time.After` is ready once the clock has reached `deadline`; a ready
    channel wins over `default`.  `starts` collects the times at which the
    mutator was invoked.  `none` when the fuel runs out. -/
def mutateLoop {σ : Type} (mutator : World σ → MutRes × World σ) (deadline : Int) :
    Nat → World σ → List Int → Option (Outcome × List Int × World σ)
  | 0, _, _ => none
  | fuel + 1, w, starts =>
    if deadline ≤ w.now then some (Outcome.fatal, starts, w)
    else
      match mutator w with
      | (MutRes.fatal, w1) => some (Outcome.fatal, starts ++ [w.now], w1)
      | (MutRes.ret (some _), w1) =>
        mutateLoop mutator deadline fuel (sleep (1 * second) w1) (starts ++ [w.now])
      | (MutRes.ret none, w1) => some (Outcome.returned, starts ++ [w.now], w1)

/-- The method `mutateOrDie`: `timeout := time.After(ks.mutationTimeout)`, then the loop. -/
def mutateOrDie {σ : Type} (ks : kube2dnsimple σ) (mutator : World σ → MutRes × World σ)
    (fuel : Nat) (w : World σ) : Option (Outcome × List Int × World σ) :=
  mutateLoop mutator (w.now + ks.mutationTimeout) fuel w []

/-- The `interface{}` argument of the event callbacks. -/
inductive Obj where
  | service (s : Service)
  | other
deriving DecidableEq, Repr

/-- The callback `newService`: retry `addDNS` on a service object. -/
def newService {σ : Type} (ks : kube2dnsimple σ) (obj : Obj) (fuel : Nat) (w : World σ) :
    Option (Outcome × List Int × World σ) :=
  match obj with
  | Obj.service s => mutateOrDie ks (fun w0 => addDNS ks s w0) fuel w
  | Obj.other => some (Outcome.returned, [], w)

/-- The callback `removeService`: retry `removeDNS` on a service object. -/
def removeService {σ : Type} (ks : kube2dnsimple σ) (obj : Obj) (fuel : Nat) (w : World σ) :
    Option (Outcome × List Int × World σ) :=
  match obj with
  | Obj.service s =>
    mutateOrDie ks (fun w0 => let r := removeDNS ks s w0; (MutRes.ret r.1, r.2)) fuel w
  | Obj.other => some (Outcome.returned, [], w)

/-! ## An in-memory provider -/

/-- The state of the in-memory provider: its records, each under its domain,
    and the next identifier to hand out. -/
structure Store where
  records : List (String × Record)
  nextId : Int
deriving DecidableEq, Repr

/-- Modelled from the spec: the package `dnsimple` (the client behind
    `ks.ds.Domains`) is not among the sources.  `listRecords(domain, name, kind)`
    returns the current records matching the name and type, `createRecord`
    adds the record under a fresh identifier, `deleteRecord` removes the record
    with the given identifier; here none of them fails. -/
def memProvider : Provider Store where
  ListRecords := fun s domain name typ =>
    (.ok ((s.records.filter
      (fun dr => dr.1 == domain && dr.2.Name == name && dr.2.RecordType == typ)).map (fun dr => dr.2)), s)
  CreateRecord := fun s domain record =>
    let r : Record := { record with Id := s.nextId }
    (.ok r, { records := s.records ++ [(domain, r)], nextId := s.nextId + 1 })
  DeleteRecord := fun s domain id =>
    (none, { s with records := s.records.filter (fun dr => !(dr.1 == domain && dr.2.Id == id)) })

/-- A provider on which every call fails with the given error. -/
def failingProvider (e : Err) : Provider Unit where
  ListRecords := fun s _ _ _ => (.error e, s)
  CreateRecord := fun s _ _ => (.error e, s)
  DeleteRecord := fun s _ _ => (some e, s)

/-- The default template `{{.Service.Name}}.svc.{{.Service.Namespace}}`, executed. -/
def defaultTemplate (s : Service) : Except Err String :=
  .ok (s.Name ++ ".svc." ++ s.Namespace)

/-- The service `web` in namespace `prod` with the given ingress hostnames. -/
def webService (hosts : List String) : Service :=
  { Name := "web", Namespace := "prod", Labels := none,
    Ports := [{ Name := "http", Port := 80 }], ClusterIP := "10.0.0.1",
    Ingress := hosts.map (fun h => { IP := "", Hostname := h }) }

/-- The program configured with the in-memory provider and the default template. -/
def memKs (timeout : Int) : kube2dnsimple Store :=
  { ds := memProvider, tmpl := defaultTemplate, domain := "example.org",
    mutationTimeout := timeout }

/-- The program configured with the failing provider and the default template. -/
def failKs (timeout : Int) : kube2dnsimple Unit :=
  { ds := failingProvider "boom", tmpl := defaultTemplate, domain := "example.org",
    mutationTimeout := timeout }

/-- The world at start: the given provider state, no call made, clock at zero. -/
def initWorld {σ : Type} (s : σ) : World σ :=
  { prov := s, trace := [], now := 0 }

/-- The create calls of a trace: domain and record. -/
def createCalls : List Call → List (String × Record)
  | [] => []
  | Call.create d r _ :: rest => (d, r) :: createCalls rest
  | _ :: rest => createCalls rest

/-- The delete calls of a trace: domain and identifier. -/
def deleteCalls : List Call → List (String × Int)
  | [] => []
  | Call.delete d i _ :: rest => (d, i) :: deleteCalls rest
  | _ :: rest => deleteCalls rest

/-- The list calls of a trace: domain, name and type. -/
def listCalls : List Call → List (String × String × String)
  | [] => []
  | Call.list d n t _ :: rest => (d, n, t) :: listCalls rest
  | _ :: rest => listCalls rest

/-- The in-memory provider holding the records of `web.svc.prod` for
    `lb1.example.com` (Id 1) and `lb2.example.com` (Id 2). -/
def twoRecordStore : Store :=
  { records := [("example.org", ⟨1, "web.svc.prod", "CNAME", "lb1.example.com"⟩),
                ("example.org", ⟨2, "web.svc.prod", "CNAME", "lb2.example.com"⟩)],
    nextId := 3 }

/-- The in-memory provider without records. -/
def emptyStore : Store :=
  { records := [], nextId := 1 }

/-- A service without ports, without ingress entries, with its cluster IP set. -/
def noPortService : Service :=
  { Name := "web", Namespace := "prod", Labels := none, Ports := [],
    ClusterIP := "10.0.0.1", Ingress := [] }

/-- The invariant of the retry loop under a `ListRecords` that always fails:
    one more list call per attempt, no create and no delete call. -/
def listOnly {σ : Type} (w : World σ) (n : Nat) (w0 : World σ) : Prop :=
  (listCalls w0.trace).length = (listCalls w.trace).length + n ∧
  createCalls w0.trace = createCalls w.trace ∧
  deleteCalls w0.trace = deleteCalls w.trace

/-! ## Lemmas on the provider calls -/

theorem createCalls_append (a b : List Call) :
    createCalls (a ++ b) = createCalls a ++ createCalls b := by
  induction a with
  | nil => rfl
  | cons c rest ih => cases c <;> simp [createCalls, ih]

theorem deleteCalls_append (a b : List Call) :
    deleteCalls (a ++ b) = deleteCalls a ++ deleteCalls b := by
  induction a with
  | nil => rfl
  | cons c rest ih => cases c <;> simp [deleteCalls, ih]

theorem listCalls_append (a b : List Call) :
    listCalls (a ++ b) = listCalls a ++ listCalls b := by
  induction a with
  | nil => rfl
  | cons c rest ih => cases c <;> simp [listCalls, ih]

theorem callDelete_trace {σ : Type} (ks : kube2dnsimple σ) (w : World σ) (id : Int) :
    (callDelete ks w id).2.trace =
      w.trace ++ [Call.delete ks.domain id (callDelete ks w id).1] := rfl

theorem callDelete_now {σ : Type} (ks : kube2dnsimple σ) (w : World σ) (id : Int) :
    (callDelete ks w id).2.now = w.now := rfl

theorem callDelete_fst {σ : Type} (ks : kube2dnsimple σ) (w : World σ) (id : Int) :
    (callDelete ks w id).1 = (ks.ds.DeleteRecord w.prov ks.domain id).1 := rfl

theorem callList_trace {σ : Type} (ks : kube2dnsimple σ) (w : World σ) (name typ : String) :
    (callList ks w name typ).2.trace =
      w.trace ++ [Call.list ks.domain name typ (errOf (callList ks w name typ).1)] := rfl

theorem callList_now {σ : Type} (ks : kube2dnsimple σ) (w : World σ) (name typ : String) :
    (callList ks w name typ).2.now = w.now := rfl

theorem callList_fst {σ : Type} (ks : kube2dnsimple σ) (w : World σ) (name typ : String) :
    (callList ks w name typ).1 = (ks.ds.ListRecords w.prov ks.domain name typ).1 := rfl

theorem callCreate_trace {σ : Type} (ks : kube2dnsimple σ) (w : World σ) (record : Record) :
    (callCreate ks w record).2.trace =
      w.trace ++ [Call.create ks.domain record (errOf (callCreate ks w record).1)] := rfl

theorem callCreate_now {σ : Type} (ks : kube2dnsimple σ) (w : World σ) (record : Record) :
    (callCreate ks w record).2.now = w.now := rfl

theorem callCreate_fst {σ : Type} (ks : kube2dnsimple σ) (w : World σ) (record : Record) :
    (callCreate ks w record).1 = (ks.ds.CreateRecord w.prov ks.domain record).1 := rfl

theorem deleteLoop_nil {σ : Type} (ks : kube2dnsimple σ) (w : World σ) :
    deleteLoop ks [] w = (none, w) := rfl

theorem deleteLoop_cons_ok {σ : Type} (ks : kube2dnsimple σ) (rec : Record)
    (rest : List Record) (w : World σ) (h : (callDelete ks w rec.Id).1 = none) :
    deleteLoop ks (rec :: rest) w = deleteLoop ks rest (callDelete ks w rec.Id).2 := by
  rcases hcd : callDelete ks w rec.Id with ⟨res, w1⟩
  rw [hcd] at h
  simp only at h
  subst h
  simp only [deleteLoop, hcd]

theorem deleteLoop_cons_err {σ : Type} (ks : kube2dnsimple σ) (rec : Record)
    (rest : List Record) (w : World σ) (e : Err) (h : (callDelete ks w rec.Id).1 = some e) :
    deleteLoop ks (rec :: rest) w = (some e, (callDelete ks w rec.Id).2) := by
  rcases hcd : callDelete ks w rec.Id with ⟨res, w1⟩
  rw [hcd] at h
  simp only at h
  subst h
  simp only [deleteLoop, hcd]

/-- The delete loop either deletes every record, in order, and returns nil,
    or stops at the first failing call and returns its error. -/
theorem deleteLoop_spec {σ : Type} (ks : kube2dnsimple σ) (records : List Record)
    (w : World σ) :
    ((deleteLoop ks records w).1 = none ∧
      (deleteLoop ks records w).2.trace =
        w.trace ++ records.map (fun rec => Call.delete ks.domain rec.Id none)) ∨
    (∃ pre rec post e, records = pre ++ rec :: post ∧
      (deleteLoop ks records w).1 = some e ∧
      (deleteLoop ks records w).2.trace =
        w.trace ++ (pre.map (fun rec => Call.delete ks.domain rec.Id none) ++
          [Call.delete ks.domain rec.Id (some e)])) := by
  induction records generalizing w with
  | nil =>
    left
    simp [deleteLoop_nil]
  | cons r rest ih =>
    cases hres : (callDelete ks w r.Id).1 with
    | none =>
      rw [deleteLoop_cons_ok ks r rest w hres]
      have ht := callDelete_trace ks w r.Id
      rw [hres] at ht
      rcases ih (callDelete ks w r.Id).2 with ⟨h1, h2⟩ | ⟨pre, rec, post, e, h1, h2, h3⟩
      · left
        refine ⟨h1, ?_⟩
        rw [h2, ht]
        simp
      · right
        refine ⟨r :: pre, rec, post, e, ?_, h2, ?_⟩
        · rw [h1]; rfl
        · rw [h3, ht]
          simp
    | some e =>
      rw [deleteLoop_cons_err ks r rest w e hres]
      right
      refine ⟨[], r, rest, e, rfl, rfl, ?_⟩
      have ht := callDelete_trace ks w r.Id
      rw [hres] at ht
      rw [ht]
      simp

theorem deleteLoop_now {σ : Type} (ks : kube2dnsimple σ) (records : List Record)
    (w : World σ) : (deleteLoop ks records w).2.now = w.now := by
  induction records generalizing w with
  | nil => rfl
  | cons r rest ih =>
    cases hres : (callDelete ks w r.Id).1 with
    | none =>
      rw [deleteLoop_cons_ok ks r rest w hres, ih]
      rfl
    | some e =>
      rw [deleteLoop_cons_err ks r rest w e hres]
      rfl

/-- When no delete fails, the loop deletes every record and returns nil. -/
theorem deleteLoop_all_ok {σ : Type} (ks : kube2dnsimple σ) (records : List Record)
    (w : World σ) (hdel : ∀ s d i, (ks.ds.DeleteRecord s d i).1 = none) :
    (deleteLoop ks records w).1 = none ∧
      (deleteLoop ks records w).2.trace =
        w.trace ++ records.map (fun rec => Call.delete ks.domain rec.Id none) := by
  induction records generalizing w with
  | nil => simp [deleteLoop_nil]
  | cons r rest ih =>
    have hres : (callDelete ks w r.Id).1 = none := hdel _ _ _
    rw [deleteLoop_cons_ok ks r rest w hres]
    have ht := callDelete_trace ks w r.Id
    rw [hres] at ht
    refine ⟨(ih _).1, ?_⟩
    rw [(ih _).2, ht]
    simp

/-- What `removeDNS` is once the name is resolved and the records are listed. -/
theorem removeDNS_eq {σ : Type} (ks : kube2dnsimple σ) (service : Service) (w : World σ)
    (name : String) (records : List Record)
    (hname : recordName ks service = .ok name)
    (hlist : (ks.ds.ListRecords w.prov ks.domain name "CNAME").1 = .ok records) :
    removeDNS ks service w = deleteLoop ks records (callList ks w name "CNAME").2 := by
  have h1 : (callList ks w name "CNAME").1 = .ok records := hlist
  rcases hcl : callList ks w name "CNAME" with ⟨res, w1⟩
  rw [hcl] at h1
  simp only at h1
  subst h1
  simp only [removeDNS, hname, hcl]

/-- What `generateRecordsForPortalService` is once the name is resolved and the
    records are listed. -/
theorem generate_eq {σ : Type} (ks : kube2dnsimple σ) (service : Service) (w : World σ)
    (name : String) (records : List Record)
    (hname : recordName ks service = .ok name)
    (hlist : (ks.ds.ListRecords w.prov ks.domain name "CNAME").1 = .ok records) :
    generateRecordsForPortalService ks service w =
      if records.length > 0 then
        match deleteLoop ks (computeToRemove service.Ingress records)
            (callList ks w name "CNAME").2 with
        | (some e, w2) => (some e, w2)
        | (none, w2) => createStage ks name (computeToAdd service.Ingress records) w2
      else createStage ks name service.Ingress (callList ks w name "CNAME").2 := by
  have h1 : (callList ks w name "CNAME").1 = .ok records := hlist
  rcases hcl : callList ks w name "CNAME" with ⟨res, w1⟩
  rw [hcl] at h1
  simp only at h1
  subst h1
  simp only [generateRecordsForPortalService, hname, hcl]

theorem callList_trace_ok {σ : Type} (ks : kube2dnsimple σ) (w : World σ) (name : String)
    (records : List Record)
    (hlist : (ks.ds.ListRecords w.prov ks.domain name "CNAME").1 = .ok records) :
    (callList ks w name "CNAME").2.trace = w.trace ++ [Call.list ks.domain name "CNAME" none] := by
  rw [callList_trace, callList_fst, hlist]
  rfl

/-! ## Lemmas on the diff -/

theorem recMatches_iff (rec : Record) (lb : LoadBalancerIngress) :
    recMatches rec lb = true ↔ rec.RecordType = "CNAME" ∧ rec.Content = lb.Hostname := by
  simp [recMatches]

theorem mem_computeToAdd (lbs : List LoadBalancerIngress) (records : List Record)
    (lb : LoadBalancerIngress) :
    lb ∈ computeToAdd lbs records ↔
      lb ∈ lbs ∧ ∀ rec ∈ records, ¬ (rec.RecordType = "CNAME" ∧ rec.Content = lb.Hostname) := by
  simp [computeToAdd, recMatches]

theorem mem_computeToRemove (lbs : List LoadBalancerIngress) (records : List Record)
    (rec : Record) :
    rec ∈ computeToRemove lbs records ↔
      rec ∈ records ∧ ∀ lb ∈ lbs, ¬ (rec.RecordType = "CNAME" ∧ rec.Content = lb.Hostname) := by
  simp [computeToRemove, recMatches]

/-- C8: the lists `toAdd` and `toRemove` computed by the two loops of
    `generateRecordsForPortalService` share no (Type, Content) pair, and
    together they are no longer than the ingress list and the fetched records. -/
theorem diff_minimal (D : List LoadBalancerIngress) (A : List Record) :
    (∀ lb ∈ computeToAdd D A, ∀ rec ∈ computeToRemove D A,
        ((rec.RecordType, rec.Content) : String × String) ≠ ("CNAME", lb.Hostname)) ∧
    (computeToAdd D A).length + (computeToRemove D A).length ≤ D.length + A.length := by
  constructor
  · intro lb hlb rec hrec heq
    rw [mem_computeToAdd] at hlb
    rw [mem_computeToRemove] at hrec
    have h1 : rec.RecordType = "CNAME" := congrArg Prod.fst heq
    have h2 : rec.Content = lb.Hostname := congrArg Prod.snd heq
    exact hlb.2 rec hrec.1 ⟨h1, h2⟩
  · have h1 : (computeToAdd D A).length ≤ D.length := List.length_filter_le _ _
    have h2 : (computeToRemove D A).length ≤ A.length := List.length_filter_le _ _
    omega

theorem computeToAdd_nil_records (lbs : List LoadBalancerIngress) :
    computeToAdd lbs [] = lbs := by
  simp [computeToAdd]

theorem computeToRemove_nil_records (lbs : List LoadBalancerIngress) :
    computeToRemove lbs [] = [] := by
  simp [computeToRemove]

/-- When no create fails, the last stage creates the first entry only. -/
theorem createStage_all_ok {σ : Type} (ks : kube2dnsimple σ) (name : String)
    (lbs : List LoadBalancerIngress) (w : World σ)
    (hcre : ∀ s d r, errOf (ks.ds.CreateRecord s d r).1 = none) :
    (createStage ks name lbs w).1 = none ∧
      (createStage ks name lbs w).2.trace =
        w.trace ++ (lbs.head?.map
          (fun lb => Call.create ks.domain (cnameRecord name lb) none)).toList := by
  cases lbs with
  | nil => simp [createStage]
  | cons lb rest =>
    have h1 : errOf (callCreate ks w (cnameRecord name lb)).1 = none := hcre _ _ _
    have ht := callCreate_trace ks w (cnameRecord name lb)
    rw [h1] at ht
    simp only [createStage, List.length_cons, Nat.add_one_ne_zero, if_false, createLoop,
      List.head?_cons, Option.map_some', Option.toList_some]
    exact ⟨h1, ht⟩

/-- C9: once the name is resolved and the records are listed, `removeDNS`
    issues one `DeleteRecord` per fetched record, with its Id and in fetched
    order, and returns nil when no delete fails; in general it stops at the
    first delete that fails and returns that error.  It never creates a record. -/
theorem removeDNS_deletes_fetched {σ : Type} (ks : kube2dnsimple σ) (service : Service)
    (w : World σ) (name : String) (records : List Record)
    (hname : recordName ks service = .ok name)
    (hlist : (ks.ds.ListRecords w.prov ks.domain name "CNAME").1 = .ok records) :
    ((∀ s d i, (ks.ds.DeleteRecord s d i).1 = none) →
      (removeDNS ks service w).1 = none ∧
      (removeDNS ks service w).2.trace =
        w.trace ++ Call.list ks.domain name "CNAME" none ::
          records.map (fun rec => Call.delete ks.domain rec.Id none)) ∧
    (((removeDNS ks service w).1 = none ∧
      (removeDNS ks service w).2.trace =
        w.trace ++ Call.list ks.domain name "CNAME" none ::
          records.map (fun rec => Call.delete ks.domain rec.Id none)) ∨
     (∃ pre rec post e, records = pre ++ rec :: post ∧
      (removeDNS ks service w).1 = some e ∧
      (removeDNS ks service w).2.trace =
        w.trace ++ Call.list ks.domain name "CNAME" none ::
          (pre.map (fun rec => Call.delete ks.domain rec.Id none) ++
            [Call.delete ks.domain rec.Id (some e)]))) := by
  rw [removeDNS_eq ks service w name records hname hlist]
  have ht := callList_trace_ok ks w name records hlist
  constructor
  · intro hdel
    have h := deleteLoop_all_ok ks records (callList ks w name "CNAME").2 hdel
    refine ⟨h.1, ?_⟩
    rw [h.2, ht]
    simp
  · rcases deleteLoop_spec ks records (callList ks w name "CNAME").2 with
      ⟨h1, h2⟩ | ⟨pre, rec, post, e, h1, h2, h3⟩
    · left
      refine ⟨h1, ?_⟩
      rw [h2, ht]
      simp
    · right
      refine ⟨pre, rec, post, e, h1, h2, ?_⟩
      rw [h3, ht]
      simp

/-- C2: when no provider call fails, `generateRecordsForPortalService` returns
    nil after one `ListRecords`, one `DeleteRecord` for each fetched record that
    no ingress hostname matches as a CNAME (with that record's Id, in fetched
    order) and for no other record, and at most one `CreateRecord`, for an
    ingress entry that no fetched record matches. -/
theorem generate_deletes_unmatched {σ : Type} (ks : kube2dnsimple σ) (service : Service)
    (w : World σ) (name : String) (records : List Record)
    (hname : recordName ks service = .ok name)
    (hlist : (ks.ds.ListRecords w.prov ks.domain name "CNAME").1 = .ok records)
    (hdel : ∀ s d i, (ks.ds.DeleteRecord s d i).1 = none)
    (hcre : ∀ s d r, errOf (ks.ds.CreateRecord s d r).1 = none) :
    (generateRecordsForPortalService ks service w).1 = none ∧
    (generateRecordsForPortalService ks service w).2.trace =
      w.trace ++ Call.list ks.domain name "CNAME" none ::
        ((computeToRemove service.Ingress records).map
            (fun rec => Call.delete ks.domain rec.Id none) ++
          ((computeToAdd service.Ingress records).head?.map
            (fun lb => Call.create ks.domain (cnameRecord name lb) none)).toList) ∧
    (∀ rec, rec ∈ computeToRemove service.Ingress records ↔
      rec ∈ records ∧
        ∀ lb ∈ service.Ingress, ¬ (rec.RecordType = "CNAME" ∧ rec.Content = lb.Hostname)) ∧
    (computeToRemove service.Ingress records).Sublist records ∧
    (∀ lb, lb ∈ computeToAdd service.Ingress records ↔
      lb ∈ service.Ingress ∧
        ∀ rec ∈ records, ¬ (rec.RecordType = "CNAME" ∧ rec.Content = lb.Hostname)) := by
  refine ⟨?_, ?_, mem_computeToRemove _ _, List.filter_sublist _, mem_computeToAdd _ _⟩
  · rw [generate_eq ks service w name records hname hlist]
    split
    · have h := deleteLoop_all_ok ks (computeToRemove service.Ingress records)
        (callList ks w name "CNAME").2 hdel
      rcases hd : deleteLoop ks (computeToRemove service.Ingress records)
        (callList ks w name "CNAME").2 with ⟨res, w2⟩
      rw [hd] at h
      simp only at h
      rw [h.1]
      exact (createStage_all_ok ks name _ w2 hcre).1
    · exact (createStage_all_ok ks name _ _ hcre).1
  · rw [generate_eq ks service w name records hname hlist]
    have ht := callList_trace_ok ks w name records hlist
    split
    · have h := deleteLoop_all_ok ks (computeToRemove service.Ingress records)
        (callList ks w name "CNAME").2 hdel
      rcases hd : deleteLoop ks (computeToRemove service.Ingress records)
        (callList ks w name "CNAME").2 with ⟨res, w2⟩
      rw [hd] at h
      simp only at h
      rw [h.1]
      simp only
      rw [(createStage_all_ok ks name _ w2 hcre).2, h.2, ht]
      simp
    · rename_i hlen
      have hnil : records = [] := by
        cases records with
        | nil => rfl
        | cons r rest => simp at hlen
      subst hnil
      rw [(createStage_all_ok ks name _ _ hcre).2, ht, computeToRemove_nil_records,
        computeToAdd_nil_records]
      simp

/-- C7: when the ingress hostnames, as CNAME targets, and the fetched records
    have the same set of (Type, Content) pairs, there is nothing to add and
    nothing to remove, and `generateRecordsForPortalService` returns nil after
    its `ListRecords` call, with no `CreateRecord` and no `DeleteRecord`. -/
theorem noop_on_equal_sets {σ : Type} (ks : kube2dnsimple σ) (service : Service)
    (w : World σ) (name : String) (records : List Record)
    (hname : recordName ks service = .ok name)
    (hlist : (ks.ds.ListRecords w.prov ks.domain name "CNAME").1 = .ok records)
    (heq : ∀ p : String × String,
      p ∈ service.Ingress.map (fun lb => ("CNAME", lb.Hostname)) ↔
        p ∈ records.map (fun rec => (rec.RecordType, rec.Content))) :
    computeToAdd service.Ingress records = [] ∧
    computeToRemove service.Ingress records = [] ∧
    (generateRecordsForPortalService ks service w).1 = none ∧
    (generateRecordsForPortalService ks service w).2.trace =
      w.trace ++ [Call.list ks.domain name "CNAME" none] := by
  have hadd : computeToAdd service.Ingress records = [] := by
    rw [List.eq_nil_iff_forall_not_mem]
    intro lb hlb
    rw [mem_computeToAdd] at hlb
    have hm : (("CNAME", lb.Hostname) : String × String) ∈
        records.map (fun rec => (rec.RecordType, rec.Content)) :=
      (heq _).mp (List.mem_map.mpr ⟨lb, hlb.1, rfl⟩)
    rcases List.mem_map.mp hm with ⟨rec, hrec, hp⟩
    exact hlb.2 rec hrec ⟨congrArg Prod.fst hp, congrArg Prod.snd hp⟩
  have hrem : computeToRemove service.Ingress records = [] := by
    rw [List.eq_nil_iff_forall_not_mem]
    intro rec hrec
    rw [mem_computeToRemove] at hrec
    have hm : ((rec.RecordType, rec.Content) : String × String) ∈
        service.Ingress.map (fun lb => ("CNAME", lb.Hostname)) :=
      (heq _).mpr (List.mem_map.mpr ⟨rec, hrec.1, rfl⟩)
    rcases List.mem_map.mp hm with ⟨lb, hlb, hp⟩
    exact hrec.2 lb hlb ⟨(congrArg Prod.fst hp).symm, (congrArg Prod.snd hp).symm⟩
  have ht := callList_trace_ok ks w name records hlist
  have hgen := generate_eq ks service w name records hname hlist
  by_cases hlen : records.length > 0
  · rw [if_pos hlen, hrem, hadd, deleteLoop_nil] at hgen
    simp only [createStage, List.length_nil, if_true] at hgen
    rw [hgen]
    exact ⟨hadd, hrem, rfl, ht⟩
  · have hnil : records = [] := by
      cases records with
      | nil => rfl
      | cons r rest => simp at hlen
    subst hnil
    have hing : service.Ingress = [] := by
      rw [computeToAdd_nil_records] at hadd
      exact hadd
    rw [if_neg hlen, hing] at hgen
    simp only [createStage, List.length_nil, if_true] at hgen
    rw [hgen]
    exact ⟨hadd, hrem, rfl, ht⟩

theorem find_of_mem_nodup (kvs : List (String × String)) (key v : String)
    (hnd : (kvs.map Prod.fst).Nodup) (hmem : (key, v) ∈ kvs) :
    kvs.find? (fun kv => kv.1 == key) = some (key, v) := by
  induction kvs with
  | nil => simp at hmem
  | cons kv rest ih =>
    rw [List.find?_cons]
    simp only [List.map_cons, List.nodup_cons] at hnd
    by_cases hk : kv.1 = key
    · simp only [hk, beq_self_eq_true]
      rcases List.mem_cons.mp hmem with h | h
      · rw [← h]
      · exfalso
        apply hnd.1
        rw [hk]
        exact List.mem_map.mpr ⟨(key, v), h, rfl⟩
    · have hne : (kv.1 == key) = false := by simpa using hk
      simp only [hne]
      rcases List.mem_cons.mp hmem with h | h
      · exfalso; apply hk; rw [← h]
      · exact ih hnd.2 h

/-- C10: `Label` returns the value stored under the key when the label map
    has the key, and the empty string when it has not, also for a service
    without labels; it is a total function, so it never fails. -/
theorem Label_lookup (s : Service) (key : String) :
    (∀ kvs v, s.Labels = some kvs → (kvs.map Prod.fst).Nodup → (key, v) ∈ kvs →
        (templateTarget.mk s).Label key = v) ∧
    ((∀ kvs, s.Labels = some kvs → key ∉ kvs.map Prod.fst) →
        (templateTarget.mk s).Label key = "") ∧
    (s.Labels = none → (templateTarget.mk s).Label key = "") := by
  refine ⟨?_, ?_, ?_⟩
  · intro kvs v hl hnd hmem
    simp only [templateTarget.Label, mapIndex, hl, find_of_mem_nodup kvs key v hnd hmem]
  · intro h
    simp only [templateTarget.Label, mapIndex]
    cases hl : s.Labels with
    | none => rfl
    | some kvs =>
      have hk := h kvs hl
      have : kvs.find? (fun kv => kv.1 == key) = none := by
        rw [List.find?_eq_none]
        intro kv hkv hbeq
        apply hk
        have : kv.1 = key := by simpa using hbeq
        rw [← this]
        exact List.mem_map.mpr ⟨kv, hkv, rfl⟩
      simp [this]
  · intro h
    simp [templateTarget.Label, mapIndex, h]

theorem Label_lookup_witness :
    (templateTarget.mk { webService [] with Labels := some [("app", "web"), ("tier", "front")] }).Label
        "tier" = "front" ∧
    (templateTarget.mk { webService [] with Labels := some [("app", "web")] }).Label "tier" = "" ∧
    (templateTarget.mk (webService [])).Label "tier" = "" :=
  ⟨(Label_lookup _ "tier").1 [("app", "web"), ("tier", "front")] "front" rfl (by decide)
      (by decide),
   (Label_lookup _ "tier").2.1 (by
      intro kvs h
      have : kvs = [("app", "web")] := by
        simp only [Option.some.injEq] at h
        exact h.symm
      subst this
      decide),
   (Label_lookup _ "tier").2.2 rfl⟩

theorem diff_minimal_witness :
    (computeToAdd (webService ["a", "b"]).Ingress [⟨1, "n", "CNAME", "b"⟩, ⟨2, "n", "CNAME", "c"⟩]).length
      + (computeToRemove (webService ["a", "b"]).Ingress
          [⟨1, "n", "CNAME", "b"⟩, ⟨2, "n", "CNAME", "c"⟩]).length ≤ 2 + 2 :=
  (diff_minimal (webService ["a", "b"]).Ingress [⟨1, "n", "CNAME", "b"⟩, ⟨2, "n", "CNAME", "c"⟩]).2

theorem callList_trace_err {σ : Type} (ks : kube2dnsimple σ) (w : World σ) (name : String)
    (e : Err) (hlist : (ks.ds.ListRecords w.prov ks.domain name "CNAME").1 = .error e) :
    (callList ks w name "CNAME").2.trace =
      w.trace ++ [Call.list ks.domain name "CNAME" (some e)] := by
  rw [callList_trace, callList_fst, hlist]
  rfl

/-- A failing `ListRecords` ends `removeDNS` with that error, right after the call. -/
theorem removeDNS_list_fails {σ : Type} (ks : kube2dnsimple σ) (service : Service)
    (w : World σ) (name : String) (e : Err)
    (hname : recordName ks service = .ok name)
    (hlist : (ks.ds.ListRecords w.prov ks.domain name "CNAME").1 = .error e) :
    removeDNS ks service w = (some e, (callList ks w name "CNAME").2) := by
  have h1 : (callList ks w name "CNAME").1 = .error e := hlist
  rcases hcl : callList ks w name "CNAME" with ⟨res, w1⟩
  rw [hcl] at h1
  simp only at h1
  subst h1
  simp only [removeDNS, hname, hcl]

/-- A failing `ListRecords` ends `addDNS` with that error, right after the call. -/
theorem addDNS_list_fails {σ : Type} (ks : kube2dnsimple σ) (service : Service)
    (w : World σ) (name : String) (e : Err)
    (hports : service.Ports.length ≠ 0)
    (hip : IsServiceIPSet service = true)
    (hname : recordName ks service = .ok name)
    (hlist : (ks.ds.ListRecords w.prov ks.domain name "CNAME").1 = .error e) :
    addDNS ks service w = (MutRes.ret (some e), (callList ks w name "CNAME").2) := by
  have h1 : (callList ks w name "CNAME").1 = .error e := hlist
  rcases hcl : callList ks w name "CNAME" with ⟨res, w1⟩
  rw [hcl] at h1
  simp only at h1
  subst h1
  simp only [addDNS, if_neg hports, hip, Bool.not_true, Bool.false_eq_true, if_false,
    generateRecordsForPortalService, hname, hcl]

theorem listOnly_step {σ : Type} (w : World σ) (n : Nat) (w0 w1 : World σ) (c : Call)
    (hc : ∃ d nm t e, c = Call.list d nm t e)
    (ht : w1.trace = w0.trace ++ [c]) (h : listOnly w n w0) :
    listOnly w (n + 1) (sleep (1 * second) w1) := by
  obtain ⟨d, nm, t, e, rfl⟩ := hc
  obtain ⟨h1, h2, h3⟩ := h
  refine ⟨?_, ?_, ?_⟩
  · show (listCalls w1.trace).length = _
    rw [ht, listCalls_append]
    simp only [listCalls, List.length_append, List.length_singleton, h1]
    omega
  · show createCalls w1.trace = _
    rw [ht, createCalls_append]
    simp only [createCalls, List.append_nil, h2]
  · show deleteCalls w1.trace = _
    rw [ht, deleteCalls_append]
    simp only [deleteCalls, List.append_nil, h3]

/-! ## The retry loop -/

/-- With a mutator that fails at every attempt and takes no time, the loop
    ends in the fatal signal once the fuel covers one attempt per started
    second up to the deadline; it has then made exactly that many further
    attempts, all before the deadline, and an invariant that every attempt
    followed by the sleep advances still holds. -/
theorem mutateLoop_always_fails {σ : Type} (mutator : World σ → MutRes × World σ)
    (deadline : Int) (Inv : Nat → World σ → Prop)
    (hfail : ∀ w, ∃ e, (mutator w).1 = MutRes.ret (some e))
    (hclock : ∀ w, (mutator w).2.now = w.now)
    (hinv : ∀ n w, Inv n w → Inv (n + 1) (sleep (1 * second) (mutator w).2)) :
    ∀ (fuel : Nat) (w : World σ) (starts : List Int),
      ((deadline - w.now + 999999999) / 1000000000).toNat + 1 ≤ fuel →
      (∀ t ∈ starts, t < deadline) →
      Inv starts.length w →
      ∃ starts1 w1, mutateLoop mutator deadline fuel w starts =
          some (Outcome.fatal, starts1, w1) ∧
        starts1.length =
          starts.length + ((deadline - w.now + 999999999) / 1000000000).toNat ∧
        (∀ t ∈ starts1, t < deadline) ∧
        (∀ t ∈ starts1, t ∈ starts ∨ w.now ≤ t) ∧
        Inv starts1.length w1 := by
  intro fuel
  induction fuel with
  | zero =>
    intro w starts hfuel
    omega
  | succ fuel ih =>
    intro w starts hfuel hstarts hI
    by_cases hd : deadline ≤ w.now
    · refine ⟨starts, w, ?_, ?_, hstarts, fun t ht => Or.inl ht, hI⟩
      · simp only [mutateLoop, if_pos hd]
      · omega
    · obtain ⟨e, he⟩ := hfail w
      have hc := hclock w
      have hi := hinv starts.length w hI
      rcases hm : mutator w with ⟨res, w1⟩
      rw [hm] at he hc hi
      simp only at he hc hi
      subst he
      have hnow : (sleep (1 * second) w1).now = w.now + 1000000000 := by
        simp only [sleep, second, hc]
        omega
      have hfuel2 : ((deadline - (sleep (1 * second) w1).now + 999999999) / 1000000000).toNat
          + 1 ≤ fuel := by
        rw [hnow]
        omega
      have hstarts2 : ∀ t ∈ starts ++ [w.now], t < deadline := by
        intro t ht
        rcases List.mem_append.mp ht with h | h
        · exact hstarts t h
        · simp only [List.mem_singleton] at h
          omega
      have hI2 : Inv (starts ++ [w.now]).length (sleep (1 * second) w1) := by
        simpa using hi
      obtain ⟨starts1, w2, h1, h2, h3, h4, h5⟩ :=
        ih (sleep (1 * second) w1) (starts ++ [w.now]) hfuel2 hstarts2 hI2
      refine ⟨starts1, w2, ?_, ?_, h3, ?_, h5⟩
      · simp only [mutateLoop, if_neg hd, hm]
        exact h1
      · rw [h2, hnow]
        simp only [List.length_append, List.length_singleton]
        omega
      · intro t ht
        rcases h4 t ht with h | h
        · rcases List.mem_append.mp h with h6 | h6
          · exact Or.inl h6
          · simp only [List.mem_singleton] at h6
            right
            omega
        · right
          rw [hnow] at h
          omega

/-- C5: with time advancing only through the 1-second sleep after each failed
    attempt, and a mutator that always fails, `mutateOrDie` ends in the fatal
    signal for every fuel above the number of started seconds of
    `mutationTimeout`; it has then invoked the mutator once per started second,
    at least `mutationTimeout / 1s` times, and every attempt started before the
    deadline. -/
theorem mutateOrDie_bounded_retry {σ : Type} (ks : kube2dnsimple σ)
    (mutator : World σ → MutRes × World σ) (w : World σ) (fuel : Nat)
    (hfail : ∀ w0, ∃ e, (mutator w0).1 = MutRes.ret (some e))
    (hclock : ∀ w0, (mutator w0).2.now = w0.now)
    (hfuel : ((ks.mutationTimeout + 999999999) / 1000000000).toNat + 1 ≤ fuel) :
    ∃ starts w1, mutateOrDie ks mutator fuel w = some (Outcome.fatal, starts, w1) ∧
      starts.length = ((ks.mutationTimeout + 999999999) / 1000000000).toNat ∧
      ks.mutationTimeout.tdiv second ≤ (starts.length : Int) ∧
      (∀ t ∈ starts, w.now ≤ t ∧ t < w.now + ks.mutationTimeout) := by
  have hrem : w.now + ks.mutationTimeout - w.now = ks.mutationTimeout := by omega
  obtain ⟨starts, w1, h1, h2, h3, h4, _⟩ :=
    mutateLoop_always_fails mutator (w.now + ks.mutationTimeout) (fun _ _ => True)
      hfail hclock (fun _ _ _ => trivial) fuel w []
      (by rw [hrem]; exact hfuel) (by simp) trivial
  rw [hrem] at h2
  simp only [List.length_nil, Nat.zero_add] at h2
  refine ⟨starts, w1, h1, h2, ?_, ?_⟩
  · rw [h2]
    by_cases hneg : ks.mutationTimeout < 0
    · have : ks.mutationTimeout.tdiv second ≤ 0 := by
        have h := Int.tdiv_nonneg (a := -ks.mutationTimeout) (b := second) (by omega)
          (by simp [second])
        rw [Int.neg_tdiv] at h
        omega
      omega
    · rw [Int.tdiv_eq_ediv (by omega) (by simp [second])]
      simp only [second]
      omega
  · intro t ht
    refine ⟨?_, h3 t ht⟩
    rcases h4 t ht with h | h
    · simp at h
    · exact h

theorem mutateOrDie_bounded_retry_witness :
    ∃ starts w1,
      mutateOrDie (failKs 2500000000) (fun w0 => (MutRes.ret (some "down"), w0)) 4
        (initWorld ()) = some (Outcome.fatal, starts, w1) ∧
      starts.length = ((((failKs 2500000000).mutationTimeout + 999999999) / 1000000000).toNat) ∧
      (failKs 2500000000).mutationTimeout.tdiv second ≤ (starts.length : Int) ∧
      (∀ t ∈ starts, (initWorld ()).now ≤ t ∧
        t < (initWorld ()).now + (failKs 2500000000).mutationTimeout) :=
  mutateOrDie_bounded_retry (failKs 2500000000) (fun w0 => (MutRes.ret (some "down"), w0))
    (initWorld ()) 4 (fun _ => ⟨"down", rfl⟩) (fun _ => rfl) (by decide)

/-! ## The reconciliation at concrete inputs -/

theorem removeDNS_deletes_fetched_witness :
    (removeDNS (memKs 0) (webService []) (initWorld twoRecordStore)).1 = none ∧
    (removeDNS (memKs 0) (webService []) (initWorld twoRecordStore)).2.trace =
      [Call.list "example.org" "web.svc.prod" "CNAME" none,
       Call.delete "example.org" 1 none, Call.delete "example.org" 2 none] :=
  (removeDNS_deletes_fetched (memKs 0) (webService []) (initWorld twoRecordStore)
    "web.svc.prod"
    [⟨1, "web.svc.prod", "CNAME", "lb1.example.com"⟩,
     ⟨2, "web.svc.prod", "CNAME", "lb2.example.com"⟩] rfl rfl).1 (fun _ _ _ => rfl)

theorem generate_deletes_unmatched_witness :
    (generateRecordsForPortalService (memKs 0) (webService ["lb1.example.com"])
      (initWorld twoRecordStore)).1 = none ∧
    (generateRecordsForPortalService (memKs 0) (webService ["lb1.example.com"])
      (initWorld twoRecordStore)).2.trace =
      [Call.list "example.org" "web.svc.prod" "CNAME" none,
       Call.delete "example.org" 2 none] :=
  ⟨(generate_deletes_unmatched (memKs 0) (webService ["lb1.example.com"])
      (initWorld twoRecordStore) "web.svc.prod"
      [⟨1, "web.svc.prod", "CNAME", "lb1.example.com"⟩,
       ⟨2, "web.svc.prod", "CNAME", "lb2.example.com"⟩] rfl rfl
      (fun _ _ _ => rfl) (fun _ _ _ => rfl)).1,
   (generate_deletes_unmatched (memKs 0) (webService ["lb1.example.com"])
      (initWorld twoRecordStore) "web.svc.prod"
      [⟨1, "web.svc.prod", "CNAME", "lb1.example.com"⟩,
       ⟨2, "web.svc.prod", "CNAME", "lb2.example.com"⟩] rfl rfl
      (fun _ _ _ => rfl) (fun _ _ _ => rfl)).2.1⟩

theorem noop_on_equal_sets_witness :
    (generateRecordsForPortalService (memKs 0)
      (webService ["lb1.example.com", "lb2.example.com"]) (initWorld twoRecordStore)).1 = none ∧
    (generateRecordsForPortalService (memKs 0)
      (webService ["lb1.example.com", "lb2.example.com"]) (initWorld twoRecordStore)).2.trace =
      [Call.list "example.org" "web.svc.prod" "CNAME" none] :=
  (noop_on_equal_sets (memKs 0) (webService ["lb1.example.com", "lb2.example.com"])
    (initWorld twoRecordStore) "web.svc.prod"
    [⟨1, "web.svc.prod", "CNAME", "lb1.example.com"⟩,
     ⟨2, "web.svc.prod", "CNAME", "lb2.example.com"⟩] rfl rfl (fun _ => Iff.rfl)).2.2

/-- C1: on a service with the two ingress hostnames `lb1.example.com` and
    `lb2.example.com` and a provider without records, one run of `addDNS`
    returns nil after a single `CreateRecord`, for `lb1.example.com`; the
    record for `lb2.example.com` is not created. -/
theorem addDNS_creates_first_only :
    (addDNS (memKs 0) (webService ["lb1.example.com", "lb2.example.com"])
      (initWorld emptyStore)).1 = MutRes.ret none ∧
    (addDNS (memKs 0) (webService ["lb1.example.com", "lb2.example.com"])
      (initWorld emptyStore)).2.trace =
      [Call.list "example.org" "web.svc.prod" "CNAME" none,
       Call.create "example.org" ⟨0, "web.svc.prod", "CNAME", "lb1.example.com"⟩ none] ∧
    (addDNS (memKs 0) (webService ["lb1.example.com", "lb2.example.com"])
      (initWorld emptyStore)).2.prov.records =
      [("example.org", ⟨1, "web.svc.prod", "CNAME", "lb1.example.com"⟩)] := by
  refine ⟨?_, ?_, ?_⟩ <;> rfl

/-- C3: after one successful run of `addDNS` on the two-hostname service and
    a provider without records, the diff against the provider's records still
    holds `lb2.example.com` to add, and a second run of `addDNS` issues a
    `CreateRecord` for it. -/
theorem addDNS_second_run_creates :
    computeToAdd (webService ["lb1.example.com", "lb2.example.com"]).Ingress
      (((addDNS (memKs 0) (webService ["lb1.example.com", "lb2.example.com"])
        (initWorld emptyStore)).2.prov.records).map (fun dr => dr.2)) =
      [⟨"", "lb2.example.com"⟩] ∧
    (addDNS (memKs 0) (webService ["lb1.example.com", "lb2.example.com"])
      { initWorld emptyStore with
        prov := (addDNS (memKs 0) (webService ["lb1.example.com", "lb2.example.com"])
          (initWorld emptyStore)).2.prov }).2.trace =
      [Call.list "example.org" "web.svc.prod" "CNAME" none,
       Call.create "example.org" ⟨0, "web.svc.prod", "CNAME", "lb2.example.com"⟩ none] := by
  refine ⟨?_, ?_⟩ <;> rfl

/-- The claim C6 as written fails on a service without ports: it has no
    ingress entries, the provider has no records, and `addDNS` ends in the
    fatal signal. -/
theorem addDNS_no_ports_fatal :
    noPortService.Ingress = [] ∧
    ((memKs 0).ds.ListRecords emptyStore "example.org" "web.svc.prod" "CNAME").1 = .ok [] ∧
    (addDNS (memKs 0) noPortService (initWorld emptyStore)).1 = MutRes.fatal := by
  refine ⟨?_, ?_, ?_⟩ <;> rfl

/-- C6 (amended): for a service with at least one port and no ingress
    entries, when the provider lists no record for the service name, `addDNS`
    returns nil without the fatal signal, and the only provider call it can
    have made is the `ListRecords`: no `CreateRecord`, no `DeleteRecord`. -/
theorem addDNS_noop_no_ingress {σ : Type} (ks : kube2dnsimple σ) (service : Service)
    (w : World σ) (name : String)
    (hports : service.Ports.length ≠ 0)
    (hing : service.Ingress = [])
    (hname : recordName ks service = .ok name)
    (hlist : (ks.ds.ListRecords w.prov ks.domain name "CNAME").1 = .ok []) :
    (addDNS ks service w).1 = MutRes.ret none ∧
    ((addDNS ks service w).2.trace = w.trace ∨
      (addDNS ks service w).2.trace = w.trace ++ [Call.list ks.domain name "CNAME" none]) ∧
    createCalls (addDNS ks service w).2.trace = createCalls w.trace ∧
    deleteCalls (addDNS ks service w).2.trace = deleteCalls w.trace := by
  by_cases hip : IsServiceIPSet service = true
  · have hgen := generate_eq ks service w name [] hname hlist
    simp only [List.length_nil, gt_iff_lt, lt_self_iff_false, if_false, hing, createStage,
      if_true] at hgen
    have ht := callList_trace_ok ks w name [] hlist
    have hadd : addDNS ks service w =
        (MutRes.ret none, (callList ks w name "CNAME").2) := by
      simp only [addDNS, if_neg hports, hip, Bool.not_true, Bool.false_eq_true, if_false, hgen]
    rw [hadd]
    refine ⟨rfl, Or.inr ht, ?_, ?_⟩
    · simp only [ht, createCalls_append, createCalls, List.append_nil]
    · simp only [ht, deleteCalls_append, deleteCalls, List.append_nil]
  · have hadd : addDNS ks service w = (MutRes.ret none, w) := by
      simp only [addDNS, if_neg hports]
      simp [hip]
    rw [hadd]
    exact ⟨rfl, Or.inl rfl, rfl, rfl⟩

theorem addDNS_noop_no_ingress_witness :
    (addDNS (memKs 0) (webService []) (initWorld emptyStore)).1 = MutRes.ret none ∧
    createCalls (addDNS (memKs 0) (webService []) (initWorld emptyStore)).2.trace = [] ∧
    deleteCalls (addDNS (memKs 0) (webService []) (initWorld emptyStore)).2.trace = [] :=
  ⟨(addDNS_noop_no_ingress (memKs 0) (webService []) (initWorld emptyStore) "web.svc.prod"
      (by decide) rfl rfl rfl).1,
   (addDNS_noop_no_ingress (memKs 0) (webService []) (initWorld emptyStore) "web.svc.prod"
      (by decide) rfl rfl rfl).2.2.1,
   (addDNS_noop_no_ingress (memKs 0) (webService []) (initWorld emptyStore) "web.svc.prod"
      (by decide) rfl rfl rfl).2.2.2⟩

/-- The claim C4 as written fails: with a provider whose `ListRecords` fails
    and a timeout of two seconds, `newService` invokes `ListRecords` a second
    time for the same event, one second after the first, and the event ends in
    the fatal signal. -/
theorem newService_retries_read_failure :
    (newService (failKs 2000000000) (Obj.service (webService ["lb1.example.com"])) 3
      (initWorld ())).map (fun r => (r.1, r.2.1, r.2.2.trace)) =
      some (Outcome.fatal, [0, 1000000000],
        [Call.list "example.org" "web.svc.prod" "CNAME" (some "boom"),
         Call.list "example.org" "web.svc.prod" "CNAME" (some "boom")]) := by
  rfl

/-- C4 (amended): a failing `ListRecords` ends that run of `addDNS` or
    `removeDNS` with the error, right after the call, without `CreateRecord`
    or `DeleteRecord`; `mutateOrDie` then runs the reconciliation again after
    the sleep, and when `ListRecords` fails at every attempt the event ends in
    the fatal signal after one `ListRecords` per started second of
    `mutationTimeout`, with no `CreateRecord` and no `DeleteRecord`. -/
theorem read_failure_retried {σ : Type} (ks : kube2dnsimple σ) (service : Service)
    (name : String) (hname : recordName ks service = .ok name) :
    (∀ (w : World σ) (e : Err),
      (ks.ds.ListRecords w.prov ks.domain name "CNAME").1 = .error e →
        ((removeDNS ks service w).1 = some e ∧
          (removeDNS ks service w).2.trace =
            w.trace ++ [Call.list ks.domain name "CNAME" (some e)]) ∧
        (service.Ports.length ≠ 0 → IsServiceIPSet service = true →
          (addDNS ks service w).1 = MutRes.ret (some e) ∧
          (addDNS ks service w).2.trace =
            w.trace ++ [Call.list ks.domain name "CNAME" (some e)])) ∧
    ((∀ st d n t, ∃ e, (ks.ds.ListRecords st d n t).1 = .error e) →
      ∀ (w : World σ) (fuel : Nat),
        ((ks.mutationTimeout + 999999999) / 1000000000).toNat + 1 ≤ fuel →
        (∃ starts w1, removeService ks (Obj.service service) fuel w =
            some (Outcome.fatal, starts, w1) ∧
          starts.length = ((ks.mutationTimeout + 999999999) / 1000000000).toNat ∧
          (listCalls w1.trace).length = (listCalls w.trace).length + starts.length ∧
          createCalls w1.trace = createCalls w.trace ∧
          deleteCalls w1.trace = deleteCalls w.trace) ∧
        (service.Ports.length ≠ 0 → IsServiceIPSet service = true →
          ∃ starts w1, newService ks (Obj.service service) fuel w =
            some (Outcome.fatal, starts, w1) ∧
          starts.length = ((ks.mutationTimeout + 999999999) / 1000000000).toNat ∧
          (listCalls w1.trace).length = (listCalls w.trace).length + starts.length ∧
          createCalls w1.trace = createCalls w.trace ∧
          deleteCalls w1.trace = deleteCalls w.trace)) := by
  constructor
  · intro w e hl
    constructor
    · rw [removeDNS_list_fails ks service w name e hname hl]
      exact ⟨rfl, callList_trace_err ks w name e hl⟩
    · intro hports hip
      rw [addDNS_list_fails ks service w name e hports hip hname hl]
      exact ⟨rfl, callList_trace_err ks w name e hl⟩
  · intro hall w fuel hfuel
    have hrem : w.now + ks.mutationTimeout - w.now = ks.mutationTimeout := by omega
    constructor
    · have hmut : ∀ w0 : World σ, ∃ e,
          (fun w2 => (MutRes.ret (removeDNS ks service w2).1, (removeDNS ks service w2).2)) w0 =
            (MutRes.ret (some e), (callList ks w0 name "CNAME").2) ∧
          (ks.ds.ListRecords w0.prov ks.domain name "CNAME").1 = .error e := by
        intro w0
        obtain ⟨e, he⟩ := hall w0.prov ks.domain name "CNAME"
        refine ⟨e, ?_, he⟩
        simp only [removeDNS_list_fails ks service w0 name e hname he]
      obtain ⟨starts, w1, h1, h2, _, _, h5⟩ :=
        mutateLoop_always_fails
          (fun w2 => (MutRes.ret (removeDNS ks service w2).1, (removeDNS ks service w2).2))
          (w.now + ks.mutationTimeout) (listOnly w)
          (by
            intro w0
            obtain ⟨e, he, _⟩ := hmut w0
            exact ⟨e, by rw [he]⟩)
          (by
            intro w0
            obtain ⟨e, he, _⟩ := hmut w0
            rw [he]
            exact callList_now ks w0 name "CNAME")
          (by
            intro n w0 hI
            obtain ⟨e, he, hl⟩ := hmut w0
            rw [he]
            exact listOnly_step w n w0 _ _ ⟨_, _, _, _, rfl⟩
              (callList_trace_err ks w0 name e hl) hI)
          fuel w [] (by rw [hrem]; exact hfuel) (by simp) ⟨rfl, rfl, rfl⟩
      rw [hrem] at h2
      simp only [List.length_nil, Nat.zero_add] at h2
      exact ⟨starts, w1, h1, h2, h5.1, h5.2.1, h5.2.2⟩
    · intro hports hip
      have hmut : ∀ w0 : World σ, ∃ e,
          addDNS ks service w0 = (MutRes.ret (some e), (callList ks w0 name "CNAME").2) ∧
          (ks.ds.ListRecords w0.prov ks.domain name "CNAME").1 = .error e := by
        intro w0
        obtain ⟨e, he⟩ := hall w0.prov ks.domain name "CNAME"
        exact ⟨e, addDNS_list_fails ks service w0 name e hports hip hname he, he⟩
      obtain ⟨starts, w1, h1, h2, _, _, h5⟩ :=
        mutateLoop_always_fails (fun w2 => addDNS ks service w2)
          (w.now + ks.mutationTimeout) (listOnly w)
          (by
            intro w0
            obtain ⟨e, he, _⟩ := hmut w0
            exact ⟨e, by simp only [he]⟩)
          (by
            intro w0
            obtain ⟨e, he, _⟩ := hmut w0
            simp only [he]
            exact callList_now ks w0 name "CNAME")
          (by
            intro n w0 hI
            obtain ⟨e, he, hl⟩ := hmut w0
            simp only [he]
            exact listOnly_step w n w0 _ _ ⟨_, _, _, _, rfl⟩
              (callList_trace_err ks w0 name e hl) hI)
          fuel w [] (by rw [hrem]; exact hfuel) (by simp) ⟨rfl, rfl, rfl⟩
      rw [hrem] at h2
      simp only [List.length_nil, Nat.zero_add] at h2
      exact ⟨starts, w1, h1, h2, h5.1, h5.2.1, h5.2.2⟩

theorem read_failure_retried_witness :
    ∃ starts w1,
      newService (failKs 2000000000) (Obj.service (webService ["lb1.example.com"])) 3
        (initWorld ()) = some (Outcome.fatal, starts, w1) ∧
      starts.length = ((((failKs 2000000000).mutationTimeout + 999999999) / 1000000000).toNat) ∧
      (listCalls w1.trace).length = (listCalls (initWorld ()).trace).length + starts.length ∧
      createCalls w1.trace = createCalls (initWorld ()).trace ∧
      deleteCalls w1.trace = deleteCalls (initWorld ()).trace :=
  ((read_failure_retried (failKs 2000000000) (webService ["lb1.example.com"]) "web.svc.prod"
    rfl).2 (fun _ _ _ _ => ⟨"boom", rfl⟩) (initWorld ()) 3 (by decide)).2 (by decide) rfl

end Kube2dnsimple
